import Mathlib

/-!
Verification of the determined experiment/searcher core against its
natural-language specification.

The definitions below are a shallow embedding of the Go sources:
  - master/pkg/searcher/custom_searcher_events_queue.go
  - master/pkg/searcher/custom_search.go
  - master/internal/experiment.go

Conventions of the embedding:
  - Go `int32` counters are modelled as `Int` (overflow is irrelevant to the
    behaviour under study, no arithmetic other than increment occurs).
  - Go `float64` values (metrics, progress, units) are only stored, compared
    and echoed by the code under study, never computed with; they are
    modelled as `Rat`.
  - `model.RequestID` (an opaque UUID) is modelled as `Nat`; the proto string
    rendering `RequestID.String()` is the identity injection in the model.
  - Mutation of a receiver in Go becomes explicit state passing: each method
    returns the new value of the receiver (plus its Go return values).
  - Side effects of the experiment actor (responses, child notifications,
    searcher calls, persistence writes, stopping itself) are reified as an
    explicit `Effect` trace.
-/

namespace Determined

/-- RequestID correlates one trial attempt across layers (an opaque UUID in
Go, modelled as a natural number). -/
abbrev RequestID := Nat

/-- model.ExitedReason (carried opaquely by trialExitedEarly events). -/
inductive ExitedReason where
  | userRequestedStop
  | errored
  | invalidHP
deriving DecidableEq

/-- The payload of experimentv1.SearcherEvent: a tagged union, one
constructor per event variant of the wire interface. -/
inductive SearcherEventPayload where
  | initialOperations
  | trialCreated (requestId : RequestID)
  | trialProgress (requestId : RequestID) (units : Rat)
  | validationCompleted (requestId : RequestID) (validateAfterLength : Nat) (metric : Rat)
  | trialExitedEarly (requestId : RequestID) (exitedReason : ExitedReason)
  | trialClosed (requestId : RequestID)
deriving DecidableEq

/-- experimentv1.SearcherEvent: a payload together with the integer id
assigned at enqueue time (`Id` is an int32 in the proto). -/
structure SearcherEvent where
  id : Int
  event : SearcherEventPayload
deriving DecidableEq

/-- Two of the Go int32 facts: its range is [-2147483648, 2147483647] and
both `int32` arithmetic and the `int32(x)` conversion wrap two's-complement,
i.e. reduce modulo 4294967296 into that range. -/
def wrap32 (n : Int) : Int := (n + 2147483648) % 4294967296 - 2147483648

theorem wrap32_wrap32_add (a b : Int) : wrap32 (wrap32 a + b) = wrap32 (a + b) := by
  unfold wrap32
  omega

theorem wrap32_eq_self (n : Int) (h1 : -2147483648 ≤ n) (h2 : n < 2147483648) :
    wrap32 n = n := by
  unfold wrap32
  omega

/-- SearcherEventQueue from custom_searcher_events_queue.go: the slice of
unacknowledged events plus the `EventCount` counter. The counter is a Go
int32; every value written to it is produced by wrap32, so the field always
holds an int32-representable value. -/
structure SearcherEventQueue where
  events : List SearcherEvent
  EventCount : Int
deriving DecidableEq

/-- newSearcherEventQueue: empty slice, counter 0. -/
def newSearcherEventQueue : SearcherEventQueue := ⟨[], 0⟩

/-- Enqueue: increments the int32 counter (wrapping at the int32 boundary,
as Go `q.EventCount++` does), overwrites the event id with the new counter
value and appends the event at the tail. -/
def Enqueue (q : SearcherEventQueue) (p : SearcherEventPayload) : SearcherEventQueue :=
  { events := q.events ++ [⟨wrap32 (q.EventCount + 1), p⟩]
    EventCount := wrap32 (q.EventCount + 1) }

/-- GetEvents returns the internal slice of events. -/
def GetEvents (q : SearcherEventQueue) : List SearcherEvent := q.events

/-- SetEvents replaces the internal slice of events. -/
def SetEvents (q : SearcherEventQueue) (events : List SearcherEvent) : SearcherEventQueue :=
  { q with events := events }

/-- Loop body of RemoveUpTo: scanning for the first event whose id matches
the (already truncated) target, `q.events = q.events[i+1:]` keeps exactly
the elements after that event; `none` encodes falling off the loop (id not
found). -/
def removeUpToAux (target : Int) : List SearcherEvent → Option (List SearcherEvent)
  | [] => none
  | e :: rest => if e.id = target then some rest else removeUpToAux target rest

/-- RemoveUpTo: the Go comparison is `v.Id == int32(eventID)` — the 64-bit
argument is truncated to int32 (wrap32) before matching. The call drops the
events through the first one whose id matches the truncated target and
returns no error; if no remaining event matches, the queue is untouched and
the Go error `event %d not found` (formatted with the untruncated argument)
is returned. -/
def RemoveUpTo (q : SearcherEventQueue) (eventID : Int) :
    SearcherEventQueue × Option String :=
  match removeUpToAux (wrap32 eventID) q.events with
  | some evs => ({ q with events := evs }, none)
  | none => (q, some ("event " ++ toString eventID ++ " not found"))

/-- Iterated Enqueue (a pure sequence of Enqueue calls). -/
def enqueueAll (q : SearcherEventQueue) : List SearcherEventPayload → SearcherEventQueue
  | [] => q
  | p :: ps => enqueueAll (Enqueue q p) ps

/-- A client-visible queue operation: an Enqueue or a RemoveUpTo. -/
inductive QOp where
  | enq (p : SearcherEventPayload)
  | remUpTo (id : Int)

/-- Run a sequence of queue operations, logging the id assigned by each
Enqueue in execution order. -/
def runQueueLog : SearcherEventQueue → List QOp → SearcherEventQueue × List Int
  | q, [] => (q, [])
  | q, .enq p :: rest =>
    let r := runQueueLog (Enqueue q p) rest
    (r.1, wrap32 (q.EventCount + 1) :: r.2)
  | q, .remUpTo id :: rest => runQueueLog (RemoveUpTo q id).1 rest

/-- Number of Enqueue calls in an operation sequence. -/
def countEnq : List QOp → Nat
  | [] => 0
  | .enq _ :: rest => countEnq rest + 1
  | .remUpTo _ :: rest => countEnq rest

theorem RemoveUpTo_EventCount (q : SearcherEventQueue) (id : Int) :
    ((RemoveUpTo q id).1).EventCount = q.EventCount := by
  unfold RemoveUpTo
  cases removeUpToAux (wrap32 id) q.events <;> rfl

theorem removeUpToAux_eq_none (id : Int) (l : List SearcherEvent)
    (h : ∀ e ∈ l, e.id ≠ id) : removeUpToAux id l = none := by
  induction l with
  | nil => rfl
  | cons e rest ih =>
    unfold removeUpToAux
    rw [if_neg (h e (List.mem_cons_self e rest))]
    exact ih fun x hx => h x (List.mem_cons_of_mem e hx)

theorem removeUpToAux_eq_some (id : Int) (l : List SearcherEvent)
    (h : ∃ e ∈ l, e.id = id) :
    ∃ pre mid rest, removeUpToAux id l = some rest ∧ l = pre ++ mid :: rest ∧
      mid.id = id ∧ ∀ e ∈ pre, e.id ≠ id := by
  induction l with
  | nil => simp at h
  | cons e rest ih =>
    by_cases he : e.id = id
    · exact ⟨[], e, rest, by simp [removeUpToAux, he], by simp, he, by simp⟩
    · obtain ⟨x, hx, hxid⟩ := h
      rcases List.mem_cons.mp hx with rfl | hx
      · exact absurd hxid he
      · obtain ⟨pre, mid, rest', h1, h2, h3, h4⟩ := ih ⟨x, hx, hxid⟩
        refine ⟨e :: pre, mid, rest', ?_, by simp [h2], h3, ?_⟩
        · simpa [removeUpToAux, he] using h1
        · intro y hy
          rcases List.mem_cons.mp hy with rfl | hy
          · exact he
          · exact h4 y hy

theorem enqueueAll_map_id :
    ∀ (ps : List SearcherEventPayload) (q : SearcherEventQueue),
    (enqueueAll q ps).events.map SearcherEvent.id
      = q.events.map SearcherEvent.id
        ++ (List.range ps.length).map
            (fun (i : Nat) => wrap32 (q.EventCount + (i : Int) + 1)) := by
  intro ps
  induction ps with
  | nil => intro q; simp [enqueueAll]
  | cons p ps ih =>
    intro q
    rw [enqueueAll, ih, List.length_cons, List.range_succ_eq_map, List.map_cons, List.map_map]
    simp only [Enqueue, List.map_append, List.map_cons, List.map_nil, List.append_assoc,
      List.singleton_append]
    congr 1
    congr 1
    · congr 1
      push_cast
      ring
    · apply List.map_congr_left
      intro i _
      simp only [Function.comp]
      rw [add_assoc, wrap32_wrap32_add]
      congr 1
      push_cast
      ring

theorem enqueueAll_map_event :
    ∀ (ps : List SearcherEventPayload) (q : SearcherEventQueue),
    (enqueueAll q ps).events.map SearcherEvent.event
      = q.events.map SearcherEvent.event ++ ps := by
  intro ps
  induction ps with
  | nil => intro q; simp [enqueueAll]
  | cons p ps ih =>
    intro q
    rw [enqueueAll, ih]
    simp [Enqueue]

theorem runQueueLog_log :
    ∀ (ops : List QOp) (q : SearcherEventQueue),
    (runQueueLog q ops).2
      = (List.range (countEnq ops)).map
          (fun (i : Nat) => wrap32 (q.EventCount + (i : Int) + 1)) := by
  intro ops
  induction ops with
  | nil => intro q; simp [runQueueLog, countEnq]
  | cons op rest ih =>
    intro q
    cases op with
    | enq p =>
      show wrap32 (q.EventCount + 1) :: (runQueueLog (Enqueue q p) rest).2 = _
      rw [ih, countEnq, List.range_succ_eq_map, List.map_cons, List.map_map]
      congr 1
      · congr 1
        push_cast
        ring
      · apply List.map_congr_left
        intro i _
        simp only [Function.comp, Enqueue]
        rw [add_assoc, wrap32_wrap32_add]
        congr 1
        push_cast
        ring
    | remUpTo id =>
      show (runQueueLog (RemoveUpTo q id).1 rest).2 = _
      rw [ih, countEnq, RemoveUpTo_EventCount]

theorem countEnq_replicate (n : Nat) (p : SearcherEventPayload) :
    countEnq (List.replicate n (QOp.enq p)) = n := by
  induction n with
  | zero => rfl
  | succ k ih => rw [List.replicate_succ, countEnq, ih]

/-- C2 counterexample: EventCount is a Go int32 and wraps. Over a pure
sequence of Enqueue calls, Enqueue number 2147483648 (2 to the 31st) assigns
id -2147483648, not 2147483648 — so the assigned ids are not the strictly
increasing contiguous integers 1, 2, 3, ... — and Enqueue number 4294967297
(2 to the 32nd plus 1) assigns id 1 again, reusing an id assigned before. -/
theorem enqueue_ids_wrap_at_int32 :
    ((runQueueLog newSearcherEventQueue
        (List.replicate 2147483648 (QOp.enq .initialOperations))).2[2147483647]?
      = some (-2147483648))
  ∧ ((runQueueLog newSearcherEventQueue
        (List.replicate 4294967297 (QOp.enq .initialOperations))).2[0]?
      = some 1)
  ∧ ((runQueueLog newSearcherEventQueue
        (List.replicate 4294967297 (QOp.enq .initialOperations))).2[4294967296]?
      = some 1) := by
  refine ⟨?_, ?_, ?_⟩ <;>
  · rw [runQueueLog_log, countEnq_replicate, List.getElem?_map, List.getElem?_range (by norm_num)]
    norm_num [wrap32, newSearcherEventQueue]

/-- C2 corrected: for any sequence of at most 2147483647 Enqueue calls on a
fresh SearcherEventQueue (no intervening RemoveUpTo) the assigned ids are
the strictly increasing contiguous integers 1, 2, 3, ..., each event
appended at the tail with payload order preserved; over any interleaving of
Enqueue and RemoveUpTo calls the n-th Enqueue assigns id wrap32(n) — the
int32-wrapped running count, unaffected by removals — so within any run of
at most 4294967296 enqueues no id is ever reused; beyond those bounds the
int32 counter wraps (see the counterexample). -/
theorem enqueue_ids_contiguous_and_fresh :
    ∀ (ps : List SearcherEventPayload) (ops : List QOp)
      (q : SearcherEventQueue) (p : SearcherEventPayload),
    (ps.length ≤ 2147483647 →
      (enqueueAll newSearcherEventQueue ps).events.map SearcherEvent.id
        = (List.range ps.length).map (fun (i : Nat) => (i : Int) + 1))
  ∧ ((enqueueAll newSearcherEventQueue ps).events.map SearcherEvent.event = ps)
  ∧ ((Enqueue q p).events = q.events ++ [⟨wrap32 (q.EventCount + 1), p⟩])
  ∧ ((runQueueLog newSearcherEventQueue ops).2
      = (List.range (countEnq ops)).map (fun (i : Nat) => wrap32 ((i : Int) + 1)))
  ∧ (countEnq ops ≤ 4294967296 → (runQueueLog newSearcherEventQueue ops).2.Nodup) := by
  intro ps ops q p
  have hzero : ∀ (n : Nat),
      (List.range n).map
          (fun (i : Nat) => wrap32 (newSearcherEventQueue.EventCount + (i : Int) + 1))
        = (List.range n).map (fun (i : Nat) => wrap32 ((i : Int) + 1)) := by
    intro n
    apply List.map_congr_left
    intro i _
    congr 1
    simp [newSearcherEventQueue]
  refine ⟨?_, ?_, rfl, ?_, ?_⟩
  · intro hlen
    rw [enqueueAll_map_id, hzero]
    simp only [newSearcherEventQueue, List.map_nil, List.nil_append]
    apply List.map_congr_left
    intro i hi
    rw [List.mem_range] at hi
    apply wrap32_eq_self <;> omega
  · rw [enqueueAll_map_event]; simp [newSearcherEventQueue]
  · rw [runQueueLog_log, hzero]
  · intro hcnt
    rw [runQueueLog_log, hzero]
    apply List.Nodup.map_on ?_ (List.nodup_range _)
    intro i hi j hj hf
    rw [List.mem_range] at hi hj
    have hf2 : wrap32 ((i : Int) + 1) = wrap32 ((j : Int) + 1) := hf
    unfold wrap32 at hf2
    omega

/-- Witness for C2 (corrected): a two-element Enqueue sequence gets ids
[1, 2], and a one-enqueue run has a duplicate-free id log. -/
theorem enqueue_ids_contiguous_and_fresh_witness :
    ((enqueueAll newSearcherEventQueue
        [SearcherEventPayload.initialOperations,
          SearcherEventPayload.trialCreated 1]).events.map SearcherEvent.id
      = [1, 2])
  ∧ (runQueueLog newSearcherEventQueue
      [QOp.enq SearcherEventPayload.initialOperations]).2.Nodup := by
  constructor
  · have h := (enqueue_ids_contiguous_and_fresh
        [SearcherEventPayload.initialOperations, SearcherEventPayload.trialCreated 1]
        [] newSearcherEventQueue SearcherEventPayload.initialOperations).1 (by norm_num)
    rw [h]
    decide
  · exact (enqueue_ids_contiguous_and_fresh []
      [QOp.enq SearcherEventPayload.initialOperations]
      newSearcherEventQueue SearcherEventPayload.initialOperations).2.2.2.2 (by decide)

/-- C3 counterexample: the Go comparison `v.Id == int32(eventID)` truncates
the 64-bit argument to int32. With a single remaining event of id 1,
RemoveUpTo(4294967297) — an id no remaining event has — succeeds and empties
the queue, because 4294967297 truncates to the int32 value 1; the claim
requires an "event not found" failure leaving the queue unmodified. -/
theorem removeUpTo_truncates_eventID :
    (∀ e ∈ (⟨[⟨1, .initialOperations⟩], 1⟩ : SearcherEventQueue).events,
        e.id ≠ 4294967297)
  ∧ (RemoveUpTo ⟨[⟨1, .initialOperations⟩], 1⟩ 4294967297).2 = none
  ∧ (RemoveUpTo ⟨[⟨1, .initialOperations⟩], 1⟩ 4294967297).1.events = [] := by
  decide

/-- C3 corrected: RemoveUpTo matches the stored ids against the truncated
argument int32(eventID): when some remaining event has id equal to that
truncation it succeeds, removing exactly the prefix through the first such
event and leaving the suffix and the counter unchanged; otherwise it fails
with the Go error `event %d not found` (formatted with the untruncated
argument) and leaves the queue completely unmodified. For arguments within
the int32 range — in particular every id the queue itself ever assigns —
the truncation is the identity, which is the regime the original claim
describes. -/
theorem removeUpTo_prefix_or_not_found :
    ∀ (q : SearcherEventQueue) (id : Int),
    ((∃ e ∈ q.events, e.id = wrap32 id) →
        (RemoveUpTo q id).2 = none
      ∧ ((RemoveUpTo q id).1).EventCount = q.EventCount
      ∧ ∃ pre mid, q.events = pre ++ mid :: ((RemoveUpTo q id).1).events
          ∧ mid.id = wrap32 id ∧ ∀ e ∈ pre, e.id ≠ wrap32 id)
  ∧ ((∀ e ∈ q.events, e.id ≠ wrap32 id) →
      RemoveUpTo q id = (q, some ("event " ++ toString id ++ " not found")))
  ∧ (-2147483648 ≤ id → id < 2147483648 → wrap32 id = id) := by
  intro q id
  refine ⟨?_, ?_, wrap32_eq_self id⟩
  · intro h
    obtain ⟨pre, mid, rest, h1, h2, h3, h4⟩ := removeUpToAux_eq_some (wrap32 id) q.events h
    refine ⟨?_, ?_, pre, mid, ?_, h3, h4⟩
    · simp [RemoveUpTo, h1]
    · simp [RemoveUpTo, h1]
    · simpa [RemoveUpTo, h1] using h2
  · intro h
    simp [RemoveUpTo, removeUpToAux_eq_none (wrap32 id) q.events h]

/-- Witness for C3 at a concrete queue: removing up to id 1 out of ids
[1, 2] succeeds. -/
theorem removeUpTo_prefix_or_not_found_witness :
    (RemoveUpTo ⟨[⟨1, .initialOperations⟩, ⟨2, .trialCreated 1⟩], 2⟩ 1).2 = none :=
  ((removeUpTo_prefix_or_not_found ⟨[⟨1, .initialOperations⟩, ⟨2, .trialCreated 1⟩], 2⟩ 1).1
    (by decide)).1

/-- SearchMethodType tag (only the custom variant is relevant here). -/
inductive SearchMethodType where
  | custom
deriving DecidableEq

/-- customSearchState from custom_search.go: the method-type tag, the event
queue and the cached externally pushed progress value. In Go the progress
field is a float64 whose zero value is 0; newCustomSearch never assigns it. -/
structure CustomSearchState where
  searchMethodType : SearchMethodType
  searcherEventQueue : SearcherEventQueue
  customSearchProgress : Rat
deriving DecidableEq

/-- newCustomSearch: fresh queue, tag CustomSearch, progress left at the Go
zero value 0. -/
def newCustomSearch : CustomSearchState :=
  { searchMethodType := .custom
    searcherEventQueue := newSearcherEventQueue
    customSearchProgress := 0 }

/-- customSearch.initialOperations: enqueues an InitialOperations event and
returns no operations. -/
def customInitialOperations (s : CustomSearchState) : CustomSearchState :=
  { s with searcherEventQueue := Enqueue s.searcherEventQueue .initialOperations }

/-- customSearch.trialCreated: enqueues a TrialCreated event. -/
def customTrialCreated (s : CustomSearchState) (rid : RequestID) : CustomSearchState :=
  { s with searcherEventQueue := Enqueue s.searcherEventQueue (.trialCreated rid) }

/-- customSearch.trialProgress: enqueues a TrialProgress event. -/
def customTrialProgress (s : CustomSearchState) (rid : RequestID) (units : Rat) :
    CustomSearchState :=
  { s with searcherEventQueue := Enqueue s.searcherEventQueue (.trialProgress rid units) }

/-- customSearch.setCustomSearcherProgress: caches the pushed value. -/
def setCustomSearcherProgress (s : CustomSearchState) (p : Rat) : CustomSearchState :=
  { s with customSearchProgress := p }

/-- customSearch.progress: ignores both per-trial maps and returns the cached
progress value. -/
def customProgress (s : CustomSearchState) (_trialProgressMap : List (RequestID × Rat))
    (_trialsClosedMap : List (RequestID × Bool)) : Rat :=
  s.customSearchProgress

/-- The JSON object produced by `json.Marshal(s.customSearchState)` in
customSearch.Snapshot. encoding/json serializes only exported fields:
`SearchMethodType` (tagged), the pointed-to SearcherEventQueue with its sole
exported field `EventCount`, and `CustomSearchProgress`. The queue field
`events` is unexported and SearcherEventQueue declares no MarshalJSON, so the
event list is silently absent from the snapshot. -/
structure CustomSearchStateJSON where
  searchMethodType : SearchMethodType
  eventCount : Int
  customSearchProgress : Rat
deriving DecidableEq

/-- customSearch.Snapshot: marshal the state (dropping the unexported event
list, see CustomSearchStateJSON). -/
def snapshotCustomSearch (s : CustomSearchState) : CustomSearchStateJSON :=
  { searchMethodType := s.searchMethodType
    eventCount := s.searcherEventQueue.EventCount
    customSearchProgress := s.customSearchProgress }

/-- customSearch.Restore: a nil blob keeps the state; otherwise
`json.Unmarshal(state, &s.customSearchState)` reuses the existing queue
pointer, overwrites the fields present in the JSON (tag, EventCount,
progress) and leaves the unexported `events` of the receiver untouched. -/
def restoreCustomSearch (s : CustomSearchState) (blob : Option CustomSearchStateJSON) :
    CustomSearchState :=
  match blob with
  | none => s
  | some j =>
    { searchMethodType := j.searchMethodType
      searcherEventQueue := { events := s.searcherEventQueue.events, EventCount := j.eventCount }
      customSearchProgress := j.customSearchProgress }

/-- C1 evaluated at a failing input (code bug): take the reachable state with
one enqueued event (id 1) and pushed progress 1/2; restoring its snapshot
into a freshly created custom searcher — the crash-recovery path — yields an
empty event list even though one event was outstanding, because Snapshot
never serializes the unexported `events` slice. The counter and the progress
value do survive, so the restored queue even claims EventCount 1 with no
events. -/
theorem snapshot_restore_loses_queue_events :
    (restoreCustomSearch newCustomSearch
        (some (snapshotCustomSearch
          (setCustomSearcherProgress (customInitialOperations newCustomSearch)
            (1 / 2))))).searcherEventQueue.events = []
  ∧ (setCustomSearcherProgress (customInitialOperations newCustomSearch)
      (1 / 2)).searcherEventQueue.events
      = [⟨1, .initialOperations⟩]
  ∧ (restoreCustomSearch newCustomSearch
        (some (snapshotCustomSearch
          (setCustomSearcherProgress (customInitialOperations newCustomSearch)
            (1 / 2))))).searcherEventQueue.EventCount = 1
  ∧ (restoreCustomSearch newCustomSearch
        (some (snapshotCustomSearch
          (setCustomSearcherProgress (customInitialOperations newCustomSearch)
            (1 / 2))))).customSearchProgress = 1 / 2
  ∧ restoreCustomSearch newCustomSearch
        (some (snapshotCustomSearch
          (setCustomSearcherProgress (customInitialOperations newCustomSearch)
            (1 / 2))))
      ≠ setCustomSearcherProgress (customInitialOperations newCustomSearch) (1 / 2) := by
  refine ⟨rfl, rfl, rfl, rfl, ?_⟩
  decide

/-- C7 counterexample: before any value is pushed, customSearch.progress
returns 0 (the Go zero value of the float64 field), not a high sentinel
below 1.0 — reading any value of at least 1/2 as high, 0 fails to qualify. -/
theorem custom_progress_initial_is_zero_not_high :
    customProgress newCustomSearch [] [] = 0
  ∧ ¬ ((1 : Rat) / 2 ≤ customProgress newCustomSearch [] []) := by
  have h : customProgress newCustomSearch [] [] = 0 := rfl
  rw [h]
  norm_num

/-- C7 amended: customSearch.progress echoes exactly the last value pushed
via setCustomSearcherProgress, ignoring both per-trial maps, and before any
value has been pushed it returns 0 (the Go zero value), not a high sentinel. -/
theorem custom_progress_echoes_last_pushed :
    ∀ (s : CustomSearchState) (p : Rat)
      (m1 m1' : List (RequestID × Rat)) (m2 m2' : List (RequestID × Bool)),
    customProgress (setCustomSearcherProgress s p) m1 m2 = p
  ∧ customProgress s m1 m2 = customProgress s m1' m2'
  ∧ customProgress newCustomSearch m1 m2 = 0 := by
  intro s p m1 m1' m2 m2'
  exact ⟨rfl, rfl, rfl⟩

/-- model.State restricted to the experiment lifecycle states named by the
spec. Modelled from the spec: the state enumeration lives in
master/pkg/model, outside the sources under study. -/
inductive ExpState where
  | active
  | paused
  | stoppingCompleted
  | stoppingCanceled
  | stoppingError
  | completed
  | canceled
  | errored
deriving DecidableEq

/-- Modelled from the spec: membership in model.StoppingStates. -/
def isStoppingState : ExpState → Bool
  | .stoppingCompleted | .stoppingCanceled | .stoppingError => true
  | _ => false

/-- Modelled from the spec: membership in model.TerminalStates. -/
def isTerminalState : ExpState → Bool
  | .completed | .canceled | .errored => true
  | _ => false

/-- Modelled from the spec: model.StoppingToTerminalStates, mapping each
stopping state to the terminal state it resolves to on shutdown. -/
def stoppingToTerminal : ExpState → ExpState
  | .stoppingCompleted => .completed
  | .stoppingCanceled => .canceled
  | .stoppingError => .errored
  | s => s

/-- Modelled from the spec: the fixed permitted-transition table of
model.Experiment.Transition. Transitions move monotonically toward terminal
states: running states may swap between active and paused or begin stopping,
stopping states may fall to stopping-error or resolve to their terminal
state, terminal states admit nothing. -/
def transitionAllowed : ExpState → ExpState → Bool
  | .active, .paused => true
  | .active, .stoppingCompleted => true
  | .active, .stoppingCanceled => true
  | .active, .stoppingError => true
  | .paused, .active => true
  | .paused, .stoppingCompleted => true
  | .paused, .stoppingCanceled => true
  | .paused, .stoppingError => true
  | .stoppingCompleted, .completed => true
  | .stoppingCompleted, .stoppingError => true
  | .stoppingCanceled, .canceled => true
  | .stoppingCanceled, .stoppingError => true
  | .stoppingError, .errored => true
  | _, _ => false

/-- Outcome of model.Experiment.Transition: the state was patched, the
experiment was already in the requested state (no-op), or the transition is
not permitted (an error in Go). -/
inductive TransitionResult where
  | patched (s : ExpState)
  | noop
  | illegal
deriving DecidableEq

def transition (cur target : ExpState) : TransitionResult :=
  if cur = target then .noop
  else if transitionAllowed cur target then .patched target
  else .illegal

/-- searcher.Create, restricted to the fields experiment.go reads: the
request id and the optional warm-start checkpoint reference. -/
structure Create where
  requestID : RequestID
  checkpoint : Option RequestID
deriving DecidableEq

/-- searcher.ValidateAfter: request id plus the length bound; compared for
equality as a whole, like the Go struct in `msg.op != state.Op`. -/
structure ValidateAfter where
  requestID : RequestID
  length : Nat
deriving DecidableEq

/-- searcher.Close. -/
structure Close where
  requestID : RequestID
deriving DecidableEq

/-- searcher.Shutdown. -/
structure Shutdown where
  failure : Bool
deriving DecidableEq

/-- searcher.Operation: the closed vocabulary experiment.go executes. -/
inductive Operation where
  | create (op : Create)
  | validateAfter (op : ValidateAfter)
  | close (op : Close)
  | shutdown (op : Shutdown)
deriving DecidableEq

def zeroCreate : Create := ⟨0, none⟩

def zeroValidateAfter : ValidateAfter := ⟨0, 0⟩

/-- trialSearcherState from experiment.go. -/
structure TrialSearcherState where
  create : Create
  op : ValidateAfter
  complete : Bool
  closed : Bool
deriving DecidableEq

/-- The Go zero value of trialSearcherState, produced by reading an absent
map key on the read-modify paths of processOperations. -/
def zeroTrialSearcherState : TrialSearcherState :=
  ⟨zeroCreate, zeroValidateAfter, false, false⟩

/-- The TrialSearcherState map, as an association list with at most one
binding per key (insert replaces). -/
abbrev TrialMap := List (RequestID × TrialSearcherState)

def lookupTS : TrialMap → RequestID → Option TrialSearcherState
  | [], _ => none
  | (k, v) :: rest, rid => if k = rid then some v else lookupTS rest rid

/-- Go map read: an absent key yields the zero value. -/
def getTS (m : TrialMap) (rid : RequestID) : TrialSearcherState :=
  (lookupTS m rid).getD zeroTrialSearcherState

def setTS : TrialMap → RequestID → TrialSearcherState → TrialMap
  | [], rid, st => [(rid, st)]
  | (k, v) :: rest, rid, st =>
    if k = rid then (k, st) :: rest else (k, v) :: setTS rest rid st

/-- The experiment actor state relevant to the claims: lifecycle state, the
TrialSearcherState map, the live child trial actors, and the configured
priority both in memory and as persisted (the collaborating store is folded
into the state so rollback behaviour is observable). -/
structure Experiment where
  state : ExpState
  trialSearcherState : TrialMap
  liveTrials : List RequestID
  priority : Option Int
  persistedPriority : Option Int
deriving DecidableEq

/-- The observable side effects of one handler invocation, in program
order. -/
inductive Effect where
  | respondValidationError (msg : String)
  | notifyTrial (rid : RequestID) (st : TrialSearcherState)
  | spawnTrial (rid : RequestID)
  | tellSearcherTrialCreated (rid : RequestID)
  | tellSearcherValidationCompleted (rid : RequestID) (metric : Rat) (op : ValidateAfter)
  | tellSearcherTrialExitedEarly (rid : RequestID) (reason : ExitedReason)
  | tellSearcherTrialClosed (rid : RequestID)
  | broadcastState (s : ExpState)
  | saveState
  | saveSnapshot
  | stopSelf
deriving DecidableEq

/-- experiment.canTerminate: stopping state and no live children. -/
def canTerminate (e : Experiment) : Bool :=
  isStoppingState e.state && e.liveTrials.isEmpty

/-- experiment.updateState: transition if permitted; on a real change
broadcast to the children, persist the state, and stop if terminable. The
Bool is the Go return value. -/
def updateState (e : Experiment) (target : ExpState) :
    Experiment × List Effect × Bool :=
  match transition e.state target with
  | .illegal => (e, [], false)
  | .noop => (e, [], true)
  | .patched s =>
    let e1 := { e with state := s }
    (e1,
      [Effect.broadcastState s, Effect.saveState]
        ++ (if canTerminate e1 then [Effect.stopSelf] else []),
      true)

/-- The outcome of one Searcher call (operations plus error), supplied as an
oracle: the SearchMethod implementations are collaborators of
experiment.go. -/
structure SearcherOut where
  ops : List Operation
  err : Option String

/-- Oracle for experiment.checkpointForCreate: whether checkpoint resolution
(a database interaction) succeeds for a given Create operation. -/
abbrev CkptOk := Create → Bool

/-- Result of the operation loop in processOperations; `aborted` records the
early return after a checkpoint-resolution failure, which skips the trailing
notification loop but not the deferred snapshot. -/
structure ExecResult where
  exp : Experiment
  effs : List Effect
  updated : List RequestID
  aborted : Bool

/-- The operation loop of experiment.processOperations: Create resolves a
checkpoint (failure forces stopping-error and aborts the batch), records a
complete Create state and spawns the trial actor; ValidateAfter installs the
new outstanding, non-complete operation; Close sets the Closed flag;
Shutdown transitions the whole experiment. -/
def execOps (ck : CkptOk) : Experiment → List Operation → ExecResult
  | e, [] => ⟨e, [], [], false⟩
  | e, .create c :: rest =>
    if ck c then
      let st : TrialSearcherState :=
        { create := c, op := zeroValidateAfter, complete := true, closed := false }
      let e1 := { e with
        trialSearcherState := setTS e.trialSearcherState c.requestID st
        liveTrials :=
          if c.requestID ∈ e.liveTrials then e.liveTrials
          else e.liveTrials ++ [c.requestID] }
      let r := execOps ck e1 rest
      ⟨r.exp, Effect.spawnTrial c.requestID :: r.effs, r.updated, r.aborted⟩
    else
      let u := updateState e .stoppingError
      ⟨u.1, u.2.1, [], true⟩
  | e, .validateAfter v :: rest =>
    let st := getTS e.trialSearcherState v.requestID
    let e1 := { e with
      trialSearcherState :=
        setTS e.trialSearcherState v.requestID { st with op := v, complete := false } }
    let r := execOps ck e1 rest
    ⟨r.exp, r.effs, v.requestID :: r.updated, r.aborted⟩
  | e, .close c :: rest =>
    let st := getTS e.trialSearcherState c.requestID
    let e1 := { e with
      trialSearcherState :=
        setTS e.trialSearcherState c.requestID { st with closed := true } }
    let r := execOps ck e1 rest
    ⟨r.exp, r.effs, c.requestID :: r.updated, r.aborted⟩
  | e, .shutdown sd :: rest =>
    let u := updateState e (if sd.failure then .stoppingError else .stoppingCompleted)
    let r := execOps ck u.1 rest
    ⟨r.exp, u.2.1 ++ r.effs, r.updated, r.aborted⟩

/-- One notification per distinct updated trial (the Go code iterates a set;
its order is unspecified, this model keeps one representative order). -/
def dedupRids : List RequestID → List RequestID
  | [] => []
  | r :: rest => if r ∈ rest then dedupRids rest else r :: dedupRids rest

/-- experiment.processOperations: a no-op while the experiment is stopping;
a searcher error forces stopping-error; otherwise the batch runs, updated
trials are notified and the combined snapshot is saved (deferred, hence also
after an aborted batch). -/
def processOperations (e : Experiment) (sr : SearcherOut) (ck : CkptOk) :
    Experiment × List Effect :=
  if isStoppingState e.state then (e, [])
  else
    match sr.err with
    | some _ =>
      let u := updateState e .stoppingError
      (u.1, u.2.1)
    | none =>
      let r := execOps ck e sr.ops
      if r.aborted then (r.exp, r.effs ++ [Effect.saveSnapshot])
      else
        (r.exp,
          r.effs
            ++ (dedupRids r.updated).map
                (fun rid => Effect.notifyTrial rid (getTS r.exp.trialSearcherState rid))
            ++ [Effect.saveSnapshot])

/-- The trialCreated message case of experiment.Receive. -/
def handleTrialCreated (e : Experiment) (rid : RequestID) (sr : SearcherOut) (ck : CkptOk) :
    Experiment × List Effect :=
  let r := processOperations e sr ck
  (r.1, Effect.tellSearcherTrialCreated rid :: r.2)

/-- The trialCompleteOperation message case of experiment.Receive. The map
lookup key is the request id carried by the operation, while the searcher is
fed the request id of the message, exactly as in the Go code. -/
def handleTrialCompleteOperation (e : Experiment) (rid : RequestID) (op : ValidateAfter)
    (metric : Rat) (sr : SearcherOut) (ck : CkptOk) : Experiment × List Effect :=
  match lookupTS e.trialSearcherState op.requestID with
  | none => (e, [Effect.respondValidationError ("no such trial")])
  | some st =>
    if op ≠ st.op then
      (e, [Effect.respondValidationError ("expected op differs from received op")])
    else if st.complete then
      (e, [Effect.respondValidationError ("received op which was previously completed")])
    else
      let st1 := { st with complete := true }
      let e1 := { e with trialSearcherState := setTS e.trialSearcherState op.requestID st1 }
      let r := processOperations e1 sr ck
      (r.1,
        Effect.notifyTrial op.requestID st1
          :: Effect.tellSearcherValidationCompleted rid metric op :: r.2)

/-- The trialReportEarlyExit message case of experiment.Receive. -/
def handleTrialReportEarlyExit (e : Experiment) (rid : RequestID) (reason : ExitedReason)
    (sr : SearcherOut) (ck : CkptOk) : Experiment × List Effect :=
  match lookupTS e.trialSearcherState rid with
  | none => (e, [Effect.respondValidationError ("trial has no state")])
  | some st =>
    let st1 := { st with complete := true, closed := true }
    let e1 := { e with trialSearcherState := setTS e.trialSearcherState rid st1 }
    let r := processOperations e1 sr ck
    (r.1,
      Effect.notifyTrial rid st1
        :: Effect.tellSearcherTrialExitedEarly rid reason :: r.2)

/-- experiment.trialClosed (reached from ChildFailed, ChildStopped and the
trialClosed replay message): the child is gone from the children set, the
searcher is told, resulting operations run, then the terminability check. -/
def handleTrialClosed (e : Experiment) (rid : RequestID) (sr : SearcherOut) (ck : CkptOk) :
    Experiment × List Effect :=
  let e1 := { e with liveTrials := e.liveTrials.erase rid }
  let r := processOperations e1 sr ck
  (r.1,
    Effect.tellSearcherTrialClosed rid
      :: (r.2 ++ (if canTerminate r.1 then [Effect.stopSelf] else [])))

/-- The fresh-start path of actor.PreStart: initial operations from the
searcher run as one batch; a searcher error fails the actor before any
operation executes. -/
def handleInitialOps (e : Experiment) (sr : SearcherOut) (ck : CkptOk) :
    Experiment × List Effect :=
  match sr.err with
  | some _ => (e, [])
  | none => processOperations e sr ck

/-- db.SaveExperimentConfig as observed through the claims: on success the
persisted priority becomes the current in-memory priority. -/
def saveExperimentConfig (e : Experiment) (ok : Bool) : Experiment :=
  if ok then { e with persistedPriority := e.priority } else e

/-- experiment.setPriority, with the database and resource-manager outcomes
as oracles (dbOk1: the first config save; rmOk: the forwarded Ask when
`forward` is set; dbOk2: the compensating save inside the deferred
rollback). The deferred closure overwrites the returned error with the
rollback-save result, so a successful rollback save masks the original
failure — modelled faithfully. -/
def setPriority (e : Experiment) (p : Option Int) (forward dbOk1 rmOk dbOk2 : Bool) :
    Experiment × Option String :=
  match p with
  | none => (e, none)
  | some pr =>
    let oldPriority := e.priority
    let e1 := { e with priority := some pr }
    if dbOk1 then
      let e2 := saveExperimentConfig e1 true
      if forward then
        if rmOk then (e2, none)
        else
          let e3 := saveExperimentConfig { e2 with priority := oldPriority } dbOk2
          (e3, if dbOk2 then none else some ("rollback save failed"))
      else (e2, none)
    else
      let e3 := saveExperimentConfig { e1 with priority := oldPriority } dbOk2
      (e3, if dbOk2 then none else some ("save failed"))

theorem processOps_stopping (e : Experiment) (sr : SearcherOut) (ck : CkptOk)
    (h : isStoppingState e.state = true) : processOperations e sr ck = (e, []) := by
  simp [processOperations, h]

/-- C10: while the experiment is in a stopping state, processOperations
returns immediately: the whole experiment state (TrialSearcherState map
included) is unchanged and no effect at all — no spawn, no notification, no
state transition even for Shutdown, no snapshot — is produced; the batch is
silently discarded. -/
theorem processOperations_noop_when_stopping :
    ∀ (e : Experiment) (sr : SearcherOut) (ck : CkptOk),
    isStoppingState e.state = true → processOperations e sr ck = (e, []) :=
  fun e sr ck h => processOps_stopping e sr ck h

/-- Witness for C10: a stopping experiment discards even a Shutdown
operation. -/
theorem processOperations_noop_when_stopping_witness :
    processOperations ⟨.stoppingCanceled, [], [1], none, none⟩
        ⟨[Operation.shutdown ⟨false⟩], none⟩ (fun _ => true)
      = (⟨.stoppingCanceled, [], [1], none, none⟩, []) :=
  processOperations_noop_when_stopping ⟨.stoppingCanceled, [], [1], none, none⟩
    ⟨[Operation.shutdown ⟨false⟩], none⟩ (fun _ => true) rfl

/-- C8 counterexample: priority 10 in memory and persisted, setPriority to
20 whose resource-manager forward fails and whose compensating config save
also fails: the handler returns with the persisted priority still 20, not
the pre-attempt 10 the claim promises. -/
theorem setPriority_rollback_persist_can_fail :
    ((setPriority ⟨.active, [], [], some 10, some 10⟩ (some 20)
        true true false false).1).persistedPriority = some 20
  ∧ ((setPriority ⟨.active, [], [], some 10, some 10⟩ (some 20)
        true true false false).1).persistedPriority ≠ some 10 := by
  exact ⟨rfl, by decide⟩

/-- C8 amended: when the resource-manager forward of a priority change
fails, the in-memory priority is rolled back to its pre-attempt value
unconditionally, and the persisted priority is rolled back provided the
compensating config save succeeds (the rollback is best effort, not a
two-phase commit). -/
theorem setPriority_rm_failure_rolls_back :
    ∀ (e : Experiment) (pr : Int) (dbOk2 : Bool),
    ((setPriority e (some pr) true true false dbOk2).1).priority = e.priority
  ∧ (dbOk2 = true →
      ((setPriority e (some pr) true true false dbOk2).1).persistedPriority
        = e.priority) := by
  intro e pr dbOk2
  cases dbOk2 <;> simp [setPriority, saveExperimentConfig]

/-- Witness for C8 (amended): with a successful compensating save, both the
in-memory and the persisted priority are back at 10. -/
theorem setPriority_rm_failure_rolls_back_witness :
    ((setPriority ⟨.active, [], [], some 10, some 10⟩ (some 20)
        true true false true).1).priority = some 10
  ∧ ((setPriority ⟨.active, [], [], some 10, some 10⟩ (some 20)
        true true false true).1).persistedPriority = some 10 :=
  ⟨(setPriority_rm_failure_rolls_back ⟨.active, [], [], some 10, some 10⟩ 20 true).1,
   (setPriority_rm_failure_rolls_back ⟨.active, [], [], some 10, some 10⟩ 20 true).2 rfl⟩

/-- C4: the trialCompleteOperation handler rejects with a validation error
and leaves the experiment completely unchanged when the request id carried
by the operation has no TrialSearcherState entry, when the submitted op
differs from the recorded outstanding operation, or when the recorded
operation is already complete; otherwise it marks that trial complete,
notifies the trial actor of exactly the completed state, feeds
ValidationCompleted into the searcher, and continues with the resulting
operation batch. -/
theorem trialCompleteOperation_guarded :
    ∀ (e : Experiment) (rid : RequestID) (op : ValidateAfter) (metric : Rat)
      (sr : SearcherOut) (ck : CkptOk),
    (lookupTS e.trialSearcherState op.requestID = none →
        handleTrialCompleteOperation e rid op metric sr ck
          = (e, [Effect.respondValidationError ("no such trial")]))
  ∧ (∀ st, lookupTS e.trialSearcherState op.requestID = some st → op ≠ st.op →
        handleTrialCompleteOperation e rid op metric sr ck
          = (e, [Effect.respondValidationError ("expected op differs from received op")]))
  ∧ (∀ st, lookupTS e.trialSearcherState op.requestID = some st → op = st.op →
        st.complete = true →
        handleTrialCompleteOperation e rid op metric sr ck
          = (e, [Effect.respondValidationError
              ("received op which was previously completed")]))
  ∧ (∀ st, lookupTS e.trialSearcherState op.requestID = some st → op = st.op →
        st.complete = false →
        (handleTrialCompleteOperation e rid op metric sr ck).1
            = (processOperations
                { e with trialSearcherState :=
                    setTS e.trialSearcherState op.requestID { st with complete := true } }
                sr ck).1
      ∧ Effect.notifyTrial op.requestID { st with complete := true }
          ∈ (handleTrialCompleteOperation e rid op metric sr ck).2
      ∧ Effect.tellSearcherValidationCompleted rid metric op
          ∈ (handleTrialCompleteOperation e rid op metric sr ck).2) := by
  intro e rid op metric sr ck
  refine ⟨?_, ?_, ?_, ?_⟩
  · intro h
    unfold handleTrialCompleteOperation
    rw [h]
  · intro st h hne
    unfold handleTrialCompleteOperation
    rw [h]
    simp [hne]
  · intro st h heq hc
    unfold handleTrialCompleteOperation
    rw [h]
    simp [heq, hc]
  · intro st h heq hc
    subst heq
    simp only [handleTrialCompleteOperation, h, hc, ne_eq, not_true_eq_false, if_false,
      Bool.false_eq_true]
    refine ⟨?_, ?_, ?_⟩ <;> simp

/-- Witness for C4 at a concrete state: resubmitting an already completed
operation is rejected without change. -/
theorem trialCompleteOperation_guarded_witness :
    handleTrialCompleteOperation
        ⟨.active, [(1, ⟨⟨1, none⟩, ⟨1, 100⟩, true, false⟩)], [1], none, none⟩
        1 ⟨1, 100⟩ 0 ⟨[], none⟩ (fun _ => true)
      = (⟨.active, [(1, ⟨⟨1, none⟩, ⟨1, 100⟩, true, false⟩)], [1], none, none⟩,
         [Effect.respondValidationError ("received op which was previously completed")]) :=
  (trialCompleteOperation_guarded
      ⟨.active, [(1, ⟨⟨1, none⟩, ⟨1, 100⟩, true, false⟩)], [1], none, none⟩
      1 ⟨1, 100⟩ 0 ⟨[], none⟩ (fun _ => true)).2.2.1
    ⟨⟨1, none⟩, ⟨1, 100⟩, true, false⟩ rfl rfl rfl

/-- C6: the experiment terminates exactly when it is in a stopping state
with zero live child trials — canTerminate is that conjunction; when a
trial closes while the experiment is stopping, the actor stops itself iff
that trial was the last live one (whatever the searcher answers, since the
operation batch is discarded while stopping); whenever the state after a
trial close is terminable the actor stops; and the terminal state reached
from StoppingCanceled is Canceled. -/
theorem handleTrialClosed_eq (e : Experiment) (rid : RequestID) (sr : SearcherOut)
    (ck : CkptOk) :
    handleTrialClosed e rid sr ck
      = ((processOperations { e with liveTrials := e.liveTrials.erase rid } sr ck).1,
         Effect.tellSearcherTrialClosed rid
           :: ((processOperations { e with liveTrials := e.liveTrials.erase rid } sr ck).2
             ++ (if canTerminate
                    (processOperations { e with liveTrials := e.liveTrials.erase rid }
                      sr ck).1
                 then [Effect.stopSelf] else []))) := rfl

theorem terminates_iff_stopping_and_no_live_trials :
    ∀ (e : Experiment) (rid : RequestID) (sr : SearcherOut) (ck : CkptOk),
    (canTerminate e = true ↔ (isStoppingState e.state = true ∧ e.liveTrials = []))
  ∧ (isStoppingState e.state = true →
      (Effect.stopSelf ∈ (handleTrialClosed e rid sr ck).2
        ↔ e.liveTrials.erase rid = []))
  ∧ (canTerminate (handleTrialClosed e rid sr ck).1 = true →
      Effect.stopSelf ∈ (handleTrialClosed e rid sr ck).2)
  ∧ stoppingToTerminal .stoppingCanceled = .canceled := by
  intro e rid sr ck
  refine ⟨?_, ?_, ?_, rfl⟩
  · simp [canTerminate, List.isEmpty_iff]
  · intro hstop
    rw [handleTrialClosed_eq,
      processOps_stopping { e with liveTrials := e.liveTrials.erase rid } sr ck hstop]
    simp [canTerminate, hstop, List.isEmpty_iff]
  · intro h
    rw [handleTrialClosed_eq] at h ⊢
    simp only at h
    simp [h]

/-- Witness for C6: a StoppingCanceled experiment whose single live trial
closes stops itself. -/
theorem terminates_iff_stopping_and_no_live_trials_witness :
    Effect.stopSelf
      ∈ (handleTrialClosed ⟨.stoppingCanceled, [], [1], none, none⟩ 1
          ⟨[], none⟩ (fun _ => true)).2 :=
  ((terminates_iff_stopping_and_no_live_trials ⟨.stoppingCanceled, [], [1], none, none⟩ 1
      ⟨[], none⟩ (fun _ => true)).2.1 rfl).mpr (by decide)

/-- C9 counterexample: SetEvents replaces the event sequence even though it
is neither Enqueue nor RemoveUpTo, refuting that those two are the only
queue operations that change the sequence of events. -/
theorem setEvents_is_a_third_mutator :
    (SetEvents ⟨[⟨1, .initialOperations⟩], 1⟩ []).events
      ≠ (⟨[⟨1, .initialOperations⟩], 1⟩ : SearcherEventQueue).events := by
  decide

/-- C9 amended: GetEvents returns the full ordered internal event sequence
without modifying the queue, and the operations that change the event
sequence are Enqueue, RemoveUpTo and SetEvents; in the Go code GetEvents
hands out the internal slice itself rather than a defensive copy, so it is
not an immutable view. -/
theorem getEvents_full_view_and_mutators :
    ∀ (q : SearcherEventQueue) (es : List SearcherEvent),
    GetEvents q = q.events
  ∧ (SetEvents q es).events = es
  ∧ (SetEvents q es).EventCount = q.EventCount := by
  intro q es
  exact ⟨rfl, rfl, rfl⟩

/-- A handled message of the experiment actor, bundling the searcher
reaction and the checkpoint-resolution oracle where the handler consults
them. -/
inductive Msg where
  | trialCreatedMsg (rid : RequestID) (sr : SearcherOut) (ck : CkptOk)
  | trialCompleteOperationMsg (rid : RequestID) (op : ValidateAfter) (metric : Rat)
      (sr : SearcherOut) (ck : CkptOk)
  | trialReportEarlyExitMsg (rid : RequestID) (reason : ExitedReason)
      (sr : SearcherOut) (ck : CkptOk)
  | trialReportProgressMsg (rid : RequestID) (units : Rat)
  | trialClosedMsg (rid : RequestID) (sr : SearcherOut) (ck : CkptOk)
  | initialOpsMsg (sr : SearcherOut) (ck : CkptOk)
  | stateCmdMsg (target : ExpState)
  | setPriorityMsg (p : Option Int) (forward dbOk1 rmOk dbOk2 : Bool)

/-- Dispatch of experiment.Receive over the modelled messages
(trialReportProgress only touches searcher-internal bookkeeping, none of the
state modelled here). -/
def stepMsg (e : Experiment) : Msg → Experiment × List Effect
  | .trialCreatedMsg rid sr ck => handleTrialCreated e rid sr ck
  | .trialCompleteOperationMsg rid op metric sr ck =>
    handleTrialCompleteOperation e rid op metric sr ck
  | .trialReportEarlyExitMsg rid reason sr ck => handleTrialReportEarlyExit e rid reason sr ck
  | .trialReportProgressMsg _ _ => (e, [])
  | .trialClosedMsg rid sr ck => handleTrialClosed e rid sr ck
  | .initialOpsMsg sr ck => handleInitialOps e sr ck
  | .stateCmdMsg target => ((updateState e target).1, (updateState e target).2.1)
  | .setPriorityMsg p forward dbOk1 rmOk dbOk2 =>
    ((setPriority e p forward dbOk1 rmOk dbOk2).1, [])

def runMsgs : Experiment → List Msg → Experiment
  | e, [] => e
  | e, m :: rest => runMsgs (stepMsg e m).1 rest

/-- The trial-map effect of one executed operation, matching execOps. -/
def opMapStep (m : TrialMap) : Operation → TrialMap
  | .create c =>
    setTS m c.requestID
      { create := c, op := zeroValidateAfter, complete := true, closed := false }
  | .validateAfter v =>
    setTS m v.requestID { getTS m v.requestID with op := v, complete := false }
  | .close c =>
    setTS m c.requestID { getTS m c.requestID with closed := true }
  | .shutdown _ => m

/-- Searcher discipline for one operation against the current map: a Close
only targets a trial whose recorded operation is complete, and a
ValidateAfter never targets a closed trial. -/
def opSafe (m : TrialMap) : Operation → Bool
  | .validateAfter v => !(getTS m v.requestID).closed
  | .close c => (getTS m c.requestID).complete
  | _ => true

def batchSafe : TrialMap → List Operation → Bool
  | _, [] => true
  | m, op :: rest => opSafe m op && batchSafe (opMapStep m op) rest

/-- The discipline applied to the batch a message's searcher reaction would
run, against the map it would run on. -/
def msgSafe (e : Experiment) : Msg → Bool
  | .trialCreatedMsg _ sr _ => batchSafe e.trialSearcherState sr.ops
  | .trialCompleteOperationMsg _ op _ sr _ =>
    match lookupTS e.trialSearcherState op.requestID with
    | none => true
    | some st =>
      if op ≠ st.op then true
      else if st.complete then true
      else
        batchSafe (setTS e.trialSearcherState op.requestID { st with complete := true })
          sr.ops
  | .trialReportEarlyExitMsg rid _ sr _ =>
    match lookupTS e.trialSearcherState rid with
    | none => true
    | some st =>
      batchSafe
        (setTS e.trialSearcherState rid { st with complete := true, closed := true })
        sr.ops
  | .trialClosedMsg _ sr _ => batchSafe e.trialSearcherState sr.ops
  | .initialOpsMsg sr _ => batchSafe e.trialSearcherState sr.ops
  | _ => true

def safeRun : Experiment → List Msg → Bool
  | _, [] => true
  | e, m :: rest => msgSafe e m && safeRun (stepMsg e m).1 rest

/-- Closed implies Complete over the whole trial map. -/
def closedImpComplete (m : TrialMap) : Bool :=
  m.all fun p => !p.2.closed || p.2.complete

def keysOf (m : TrialMap) : List RequestID := m.map Prod.fst

theorem mem_setTS : ∀ (m : TrialMap) (rid : RequestID) (st : TrialSearcherState)
    (p : RequestID × TrialSearcherState),
    p ∈ setTS m rid st → p = (rid, st) ∨ p ∈ m := by
  intro m rid st
  induction m with
  | nil =>
    intro p hp
    rw [setTS, List.mem_singleton] at hp
    exact Or.inl hp
  | cons kv rest ih =>
    intro p hp
    rw [setTS] at hp
    by_cases hk : kv.1 = rid
    · rw [if_pos hk] at hp
      rcases List.mem_cons.mp hp with h | h
      · exact Or.inl (by rw [h, hk])
      · exact Or.inr (List.mem_cons_of_mem _ h)
    · rw [if_neg hk] at hp
      rcases List.mem_cons.mp hp with h | h
      · exact Or.inr (by rw [h]; exact List.mem_cons_self _ _)
      · rcases ih p h with h1 | h1
        · exact Or.inl h1
        · exact Or.inr (List.mem_cons_of_mem _ h1)

theorem closedImp_iff (m : TrialMap) :
    closedImpComplete m = true
      ↔ ∀ p ∈ m, p.2.closed = true → p.2.complete = true := by
  unfold closedImpComplete
  rw [List.all_eq_true]
  constructor
  · intro h p hp hc
    have hx := h p hp
    rw [hc] at hx
    simpa using hx
  · intro h p hp
    by_cases hc : p.2.closed = true
    · simp [hc, h p hp hc]
    · rw [Bool.not_eq_true] at hc
      simp [hc]

theorem closedImp_setTS (m : TrialMap) (rid : RequestID) (st : TrialSearcherState)
    (hm : closedImpComplete m = true) (hst : st.closed = true → st.complete = true) :
    closedImpComplete (setTS m rid st) = true := by
  rw [closedImp_iff] at hm ⊢
  intro p hp hc
  rcases mem_setTS m rid st p hp with h | h
  · rw [h] at hc ⊢
    exact hst hc
  · exact hm p h hc

theorem keysOf_setTS : ∀ (m : TrialMap) (rid : RequestID) (st : TrialSearcherState),
    keysOf (setTS m rid st)
      = if rid ∈ keysOf m then keysOf m else keysOf m ++ [rid] := by
  intro m rid st
  induction m with
  | nil => simp [setTS, keysOf]
  | cons kv rest ih =>
    rw [setTS]
    by_cases hk : kv.1 = rid
    · rw [if_pos hk]
      simp [keysOf, hk]
    · rw [if_neg hk]
      have hne : ¬ rid = kv.1 := fun h => hk h.symm
      simp only [keysOf, List.map_cons] at ih ⊢
      rw [ih]
      by_cases hmem : rid ∈ List.map Prod.fst rest
      · simp [hmem, hne]
      · simp [hmem, hne]

theorem nodup_keys_setTS (m : TrialMap) (rid : RequestID) (st : TrialSearcherState)
    (h : (keysOf m).Nodup) : (keysOf (setTS m rid st)).Nodup := by
  rw [keysOf_setTS]
  by_cases hmem : rid ∈ keysOf m
  · rwa [if_pos hmem]
  · rw [if_neg hmem]
    simp [List.nodup_append, h, hmem]

theorem updateState_map (e : Experiment) (t : ExpState) :
    (updateState e t).1.trialSearcherState = e.trialSearcherState := by
  unfold updateState
  cases transition e.state t <;> rfl

theorem setPriority_map (e : Experiment) (p : Option Int)
    (forward dbOk1 rmOk dbOk2 : Bool) :
    (setPriority e p forward dbOk1 rmOk dbOk2).1.trialSearcherState
      = e.trialSearcherState := by
  unfold setPriority saveExperimentConfig
  cases p with
  | none => rfl
  | some pr => split_ifs <;> rfl

theorem processOps_fst (e : Experiment) (sr : SearcherOut) (ck : CkptOk) :
    (processOperations e sr ck).1
      = if isStoppingState e.state then e
        else
          match sr.err with
          | some _ => (updateState e .stoppingError).1
          | none => (execOps ck e sr.ops).exp := by
  unfold processOperations
  by_cases hs : isStoppingState e.state = true
  · simp [hs]
  · rw [Bool.not_eq_true] at hs
    cases sr.err with
    | none =>
      simp only [hs, Bool.false_eq_true, if_false]
      split <;> rfl
    | some s => simp [hs]

theorem execOps_closedImp : ∀ (ops : List Operation) (e : Experiment) (ck : CkptOk),
    closedImpComplete e.trialSearcherState = true →
    batchSafe e.trialSearcherState ops = true →
    closedImpComplete (execOps ck e ops).exp.trialSearcherState = true := by
  intro ops
  induction ops with
  | nil => intro e ck hm _; simpa [execOps] using hm
  | cons op rest ih =>
    intro e ck hm hb
    rw [batchSafe, Bool.and_eq_true] at hb
    obtain ⟨h1, h2⟩ := hb
    cases op with
    | create c =>
      by_cases hck : ck c = true
      · simp only [execOps, hck, if_true]
        exact ih _ ck (closedImp_setTS _ _ _ hm (by intro h; exact absurd h (by simp))) h2
      · simp only [execOps, hck, Bool.false_eq_true, if_false]
        rw [updateState_map]
        exact hm
    | validateAfter v =>
      have hcl : (getTS e.trialSearcherState v.requestID).closed = false := by
        simpa [opSafe] using h1
      simp only [execOps]
      refine ih _ ck (closedImp_setTS _ _ _ hm ?_) h2
      intro h
      rw [show ({ getTS e.trialSearcherState v.requestID with
          op := v, complete := false } : TrialSearcherState).closed
        = (getTS e.trialSearcherState v.requestID).closed from rfl, hcl] at h
      exact absurd h (by simp)
    | close c =>
      have hco : (getTS e.trialSearcherState c.requestID).complete = true := by
        simpa [opSafe] using h1
      simp only [execOps]
      exact ih _ ck (closedImp_setTS _ _ _ hm (fun _ => hco)) h2
    | shutdown sd =>
      simp only [execOps]
      refine ih _ ck ?_ ?_
      · rw [updateState_map]; exact hm
      · rw [updateState_map]; exact h2

theorem execOps_nodup : ∀ (ops : List Operation) (e : Experiment) (ck : CkptOk),
    (keysOf e.trialSearcherState).Nodup →
    (keysOf (execOps ck e ops).exp.trialSearcherState).Nodup := by
  intro ops
  induction ops with
  | nil => intro e ck h; simpa [execOps] using h
  | cons op rest ih =>
    intro e ck h
    cases op with
    | create c =>
      by_cases hck : ck c = true
      · simp only [execOps, hck, if_true]
        exact ih _ ck (nodup_keys_setTS _ _ _ h)
      · simp only [execOps, hck, Bool.false_eq_true, if_false]
        rw [updateState_map]
        exact h
    | validateAfter v =>
      simp only [execOps]
      exact ih _ ck (nodup_keys_setTS _ _ _ h)
    | close c =>
      simp only [execOps]
      exact ih _ ck (nodup_keys_setTS _ _ _ h)
    | shutdown sd =>
      simp only [execOps]
      refine ih _ ck ?_
      rw [updateState_map]
      exact h

theorem processOps_closedImp (e : Experiment) (sr : SearcherOut) (ck : CkptOk)
    (hm : closedImpComplete e.trialSearcherState = true)
    (hb : batchSafe e.trialSearcherState sr.ops = true) :
    closedImpComplete (processOperations e sr ck).1.trialSearcherState = true := by
  rw [processOps_fst]
  by_cases hs : isStoppingState e.state = true
  · rwa [if_pos hs]
  · rw [Bool.not_eq_true] at hs
    rw [if_neg (by simp [hs])]
    cases sr.err with
    | none => exact execOps_closedImp sr.ops e ck hm hb
    | some s => rw [updateState_map]; exact hm

theorem processOps_nodup (e : Experiment) (sr : SearcherOut) (ck : CkptOk)
    (h : (keysOf e.trialSearcherState).Nodup) :
    (keysOf (processOperations e sr ck).1.trialSearcherState).Nodup := by
  rw [processOps_fst]
  by_cases hs : isStoppingState e.state = true
  · rwa [if_pos hs]
  · rw [Bool.not_eq_true] at hs
    rw [if_neg (by simp [hs])]
    cases sr.err with
    | none => exact execOps_nodup sr.ops e ck h
    | some s => rw [updateState_map]; exact h

theorem stepMsg_closedImp (e : Experiment) (m : Msg)
    (hm : closedImpComplete e.trialSearcherState = true)
    (hs : msgSafe e m = true) :
    closedImpComplete (stepMsg e m).1.trialSearcherState = true := by
  cases m with
  | trialCreatedMsg rid sr ck =>
    exact processOps_closedImp e sr ck hm hs
  | trialCompleteOperationMsg rid op metric sr ck =>
    cases hl : lookupTS e.trialSearcherState op.requestID with
    | none =>
      simp only [stepMsg, handleTrialCompleteOperation, hl]
      exact hm
    | some st =>
      by_cases h1 : op = st.op
      · by_cases h2 : st.complete = true
        · simp only [stepMsg, handleTrialCompleteOperation, hl]
          rw [if_neg (fun hn => hn h1), if_pos h2]
          exact hm
        · have hb : batchSafe
              (setTS e.trialSearcherState op.requestID { st with complete := true })
              sr.ops = true := by
            have := hs
            simp only [msgSafe, hl] at this
            rwa [if_neg (fun hn => hn h1), if_neg h2] at this
          have hm1 : closedImpComplete
              (setTS e.trialSearcherState op.requestID { st with complete := true })
              = true :=
            closedImp_setTS _ _ _ hm (fun _ => rfl)
          simp only [stepMsg, handleTrialCompleteOperation, hl]
          rw [if_neg (fun hn => hn h1), if_neg h2]
          exact processOps_closedImp
            { e with trialSearcherState :=
                setTS e.trialSearcherState op.requestID { st with complete := true } }
            sr ck hm1 hb
      · simp only [stepMsg, handleTrialCompleteOperation, hl]
        rw [if_pos h1]
        exact hm
  | trialReportEarlyExitMsg rid reason sr ck =>
    cases hl : lookupTS e.trialSearcherState rid with
    | none =>
      simp only [stepMsg, handleTrialReportEarlyExit, hl]
      exact hm
    | some st =>
      have hb : batchSafe
          (setTS e.trialSearcherState rid { st with complete := true, closed := true })
          sr.ops = true := by
        have := hs
        simpa only [msgSafe, hl] using this
      have hm1 : closedImpComplete
          (setTS e.trialSearcherState rid { st with complete := true, closed := true })
          = true :=
        closedImp_setTS _ _ _ hm (fun _ => rfl)
      simp only [stepMsg, handleTrialReportEarlyExit, hl]
      exact processOps_closedImp
        { e with trialSearcherState :=
            setTS e.trialSearcherState rid { st with complete := true, closed := true } }
        sr ck hm1 hb
  | trialReportProgressMsg rid units =>
    exact hm
  | trialClosedMsg rid sr ck =>
    exact processOps_closedImp { e with liveTrials := e.liveTrials.erase rid } sr ck hm hs
  | initialOpsMsg sr ck =>
    cases herr : sr.err with
    | some s =>
      simp only [stepMsg, handleInitialOps, herr]
      exact hm
    | none =>
      simp only [stepMsg, handleInitialOps, herr]
      exact processOps_closedImp e sr ck hm hs
  | stateCmdMsg target =>
    simp only [stepMsg]
    rw [updateState_map]
    exact hm
  | setPriorityMsg p forward dbOk1 rmOk dbOk2 =>
    simp only [stepMsg]
    rw [setPriority_map]
    exact hm

theorem stepMsg_nodup (e : Experiment) (m : Msg)
    (h : (keysOf e.trialSearcherState).Nodup) :
    (keysOf (stepMsg e m).1.trialSearcherState).Nodup := by
  cases m with
  | trialCreatedMsg rid sr ck =>
    exact processOps_nodup e sr ck h
  | trialCompleteOperationMsg rid op metric sr ck =>
    cases hl : lookupTS e.trialSearcherState op.requestID with
    | none =>
      simp only [stepMsg, handleTrialCompleteOperation, hl]
      exact h
    | some st =>
      by_cases h1 : op = st.op
      · by_cases h2 : st.complete = true
        · simp only [stepMsg, handleTrialCompleteOperation, hl]
          rw [if_neg (fun hn => hn h1), if_pos h2]
          exact h
        · simp only [stepMsg, handleTrialCompleteOperation, hl]
          rw [if_neg (fun hn => hn h1), if_neg h2]
          exact processOps_nodup
            { e with trialSearcherState :=
                setTS e.trialSearcherState op.requestID { st with complete := true } }
            sr ck (nodup_keys_setTS _ _ _ h)
      · simp only [stepMsg, handleTrialCompleteOperation, hl]
        rw [if_pos h1]
        exact h
  | trialReportEarlyExitMsg rid reason sr ck =>
    cases hl : lookupTS e.trialSearcherState rid with
    | none =>
      simp only [stepMsg, handleTrialReportEarlyExit, hl]
      exact h
    | some st =>
      simp only [stepMsg, handleTrialReportEarlyExit, hl]
      exact processOps_nodup
        { e with trialSearcherState :=
            setTS e.trialSearcherState rid { st with complete := true, closed := true } }
        sr ck (nodup_keys_setTS _ _ _ h)
  | trialReportProgressMsg rid units =>
    exact h
  | trialClosedMsg rid sr ck =>
    exact processOps_nodup { e with liveTrials := e.liveTrials.erase rid } sr ck h
  | initialOpsMsg sr ck =>
    cases herr : sr.err with
    | some s =>
      simp only [stepMsg, handleInitialOps, herr]
      exact h
    | none =>
      simp only [stepMsg, handleInitialOps, herr]
      exact processOps_nodup e sr ck h
  | stateCmdMsg target =>
    simp only [stepMsg]
    rw [updateState_map]
    exact h
  | setPriorityMsg p forward dbOk1 rmOk dbOk2 =>
    simp only [stepMsg]
    rw [setPriority_map]
    exact h

theorem runMsgs_inv : ∀ (msgs : List Msg) (e : Experiment),
    (keysOf e.trialSearcherState).Nodup →
    (keysOf (runMsgs e msgs).trialSearcherState).Nodup
  ∧ (closedImpComplete e.trialSearcherState = true → safeRun e msgs = true →
      closedImpComplete (runMsgs e msgs).trialSearcherState = true) := by
  intro msgs
  induction msgs with
  | nil => intro e h; exact ⟨h, fun hc _ => hc⟩
  | cons m rest ih =>
    intro e h
    refine ⟨(ih (stepMsg e m).1 (stepMsg_nodup e m h)).1, ?_⟩
    intro hc hsafe
    rw [show safeRun e (m :: rest) = (msgSafe e m && safeRun (stepMsg e m).1 rest)
      from rfl, Bool.and_eq_true] at hsafe
    exact (ih (stepMsg e m).1 (stepMsg_nodup e m h)).2
      (stepMsg_closedImp e m hc hsafe.1) hsafe.2

/-- C5 counterexample: from a fresh active experiment, a single
InitialOperations reaction [Create 1, ValidateAfter 1, Close 1] leaves trial
1 with Closed = true but Complete = false — a Close operation sets Closed
without forcing Complete, so Closed does not imply Complete over all
reachable states and operation batches. -/
theorem close_without_complete_reachable :
    (getTS (runMsgs ⟨.active, [], [], none, none⟩
        [Msg.initialOpsMsg
          ⟨[.create ⟨1, none⟩, .validateAfter ⟨1, 5⟩, .close ⟨1⟩], none⟩
          (fun _ => true)]).trialSearcherState 1).closed = true
  ∧ (getTS (runMsgs ⟨.active, [], [], none, none⟩
        [Msg.initialOpsMsg
          ⟨[.create ⟨1, none⟩, .validateAfter ⟨1, 5⟩, .close ⟨1⟩], none⟩
          (fun _ => true)]).trialSearcherState 1).complete = false := by
  exact ⟨rfl, rfl⟩

/-- C5 amended: in every state reachable from a fresh experiment (empty
trial map, any initial lifecycle state and priority) by any sequence of
handled messages, the TrialSearcherState map binds each request id at most
once — and since each entry holds a single ValidateAfter op with a single
Complete flag, at most one outstanding (incomplete) ValidateAfter exists per
trial; Closed implies Complete additionally holds in every run whose
operation batches respect the searcher discipline that a Close only targets
a trial whose recorded operation is complete and a ValidateAfter never
targets a closed trial (necessary by the counterexample). -/
theorem trial_state_invariant :
    ∀ (s0 : ExpState) (p0 : Option Int) (msgs : List Msg),
    (∀ rid,
      (keysOf (runMsgs ⟨s0, [], [], p0, p0⟩ msgs).trialSearcherState).count rid ≤ 1)
  ∧ (safeRun ⟨s0, [], [], p0, p0⟩ msgs = true →
      closedImpComplete (runMsgs ⟨s0, [], [], p0, p0⟩ msgs).trialSearcherState
        = true) := by
  intro s0 p0 msgs
  have h := runMsgs_inv msgs ⟨s0, [], [], p0, p0⟩ (by simp [keysOf])
  exact ⟨fun rid => List.nodup_iff_count_le_one.mp h.1 rid, fun hsafe => h.2 rfl hsafe⟩

/-- Witness for C5 (amended) at a concrete safe run: Create then
ValidateAfter leaves a map satisfying Closed implies Complete. -/
theorem trial_state_invariant_witness :
    closedImpComplete (runMsgs ⟨.active, [], [], none, none⟩
        [Msg.initialOpsMsg ⟨[.create ⟨1, none⟩, .validateAfter ⟨1, 5⟩], none⟩
          (fun _ => true)]).trialSearcherState = true :=
  (trial_state_invariant .active none
      [Msg.initialOpsMsg ⟨[.create ⟨1, none⟩, .validateAfter ⟨1, 5⟩], none⟩
        (fun _ => true)]).2 (by decide)

end Determined
